import Mathlib

/-!
Verification development for the appinspect-worker repository.

The definitions below are shallow embeddings of the Python sources:
  * `apk_converter.py`  — ingestion/store layer (APKConverter),
  * `apk_analysis.py`   — analysis engine (APKAnalysis and module functions),
  * `appinspect_ops.py` — analysis driver (AppInspectOps.analyse_apks),
  * `models.py`         — ApkBasicInfo / ApkContentFileInfo dataclasses.

Python strings are modelled as Lean `String` (a wrapper around `List Char`);
bytes as `List Nat`; Python `None`-able values as `Option`; raised exceptions
as `Except` errors or dedicated outcome constructors.  External library calls
(hashlib sha256, Python text decoding, the `re` module's compiled-pattern
search) are passed in as explicit function parameters, since their internals
are outside the repository; everything the repository itself computes is
translated directly.
-/

set_option maxHeartbeats 1000000

/- ### Generic string helpers mirroring the Python built-ins used by the code -/

/-- Model of Python `str.lower` (ASCII case folding, as used by the code). -/
def lowerStr (s : String) : String := String.mk (s.data.map Char.toLower)

/-- Contiguous-sublist test on character lists. -/
def listInfix (sub : List Char) : List Char → Bool
  | [] => sub.isEmpty
  | c :: rest => sub.isPrefixOf (c :: rest) || listInfix sub rest

/-- Model of Python `sub in s` for strings: contiguous substring containment. -/
def strContains (s sub : String) : Bool := listInfix sub.data s.data

/-- Model of Python `s.startswith(pre)`. -/
def strStartsWith (s pre : String) : Bool := pre.data.isPrefixOf s.data

/-- Fuel-driven worker for `strReplace`; the fuel is the input length, which
bounds the number of characters consumed. -/
def replaceAllFuel (pat rep : List Char) : Nat → List Char → List Char
  | 0, l => l
  | _ + 1, [] => []
  | fuel + 1, c :: rest =>
    if !pat.isEmpty && pat.isPrefixOf (c :: rest) then
      rep ++ replaceAllFuel pat rep fuel ((c :: rest).drop pat.length)
    else
      c :: replaceAllFuel pat rep fuel rest

/-- Model of Python `s.replace(pat, rep)`: replace every (left-to-right,
non-overlapping) occurrence of `pat` in `s` by `rep`. -/
def strReplace (s pat rep : String) : String :=
  String.mk (replaceAllFuel pat.data rep.data s.data.length s.data)

/-- Split a character list on a separator character (model of Python
`str.split(sep)` for a one-character separator, keeping empty pieces). -/
def splitOnCharAux (sep : Char) : List Char → List Char → List (List Char)
  | [], acc => [acc.reverse]
  | c :: rest, acc =>
    if c = sep then acc.reverse :: splitOnCharAux sep rest []
    else splitOnCharAux sep rest (c :: acc)

/-- Model of Python `s.split(sep)` for a one-character separator. -/
def splitOnChar (sep : Char) (s : String) : List String :=
  (splitOnCharAux sep s.data []).map String.mk

/-- Fuel-driven worker for `pySplit` (multi-character separator split). -/
def splitOnListFuel (pat : List Char) : Nat → List Char → List Char → List (List Char)
  | 0, l, acc => [acc.reverse ++ l]
  | _ + 1, [], acc => [acc.reverse]
  | fuel + 1, c :: rest, acc =>
    if !pat.isEmpty && pat.isPrefixOf (c :: rest) then
      acc.reverse :: splitOnListFuel pat fuel ((c :: rest).drop pat.length) []
    else
      splitOnListFuel pat fuel rest (c :: acc)

/-- Model of Python `s.split(sep)` for a nonempty string separator. -/
def pySplit (s sep : String) : List String :=
  (splitOnListFuel sep.data (s.data.length + 1) s.data []).map String.mk

/- ### Data model (`models.py`) -/

/-- Dataclass `ApkBasicInfo` of `models.py` (the PackageDescriptor):
`app_id`, `version_code`, `version_name` and the whole-package dedup key
`apk_sha256`. -/
structure ApkBasicInfo where
  app_id : String
  version_code : Int
  version_name : String
  apk_sha256 : String
deriving DecidableEq

/-- Dataclass `ApkContentFileInfo` of `models.py` (the FileRecord): one row
per extracted file; `content_text`/`content_blob` are mutually optional. -/
structure ApkContentFileInfo where
  relative_path : String
  filename : String
  extension : String
  content_text : Option String
  content_blob : Option (List Nat)
  content_mode : String
  file_sha256 : String
deriving DecidableEq

/-- One persisted row: the merge `{**apk_basicinfo.__dict__, **cf.__dict__}`
built in `APKConverter.write_as_parquet` (line 147 of `apk_converter.py`). -/
structure StoreRow where
  app_id : String
  version_code : Int
  version_name : String
  apk_sha256 : String
  relative_path : String
  filename : String
  extension : String
  content_text : Option String
  content_blob : Option (List Nat)
  content_mode : String
  file_sha256 : String
deriving DecidableEq

/-- Merge a descriptor with one file record into a store row. -/
def mkStoreRow (b : ApkBasicInfo) (c : ApkContentFileInfo) : StoreRow :=
  ⟨b.app_id, b.version_code, b.version_name, b.apk_sha256,
   c.relative_path, c.filename, c.extension, c.content_text, c.content_blob,
   c.content_mode, c.file_sha256⟩

/-- Field names of `ApkBasicInfo` (what `dataclasses.fields` yields). -/
def apkBasicInfoFieldNames : List String :=
  ["app_id", "version_code", "version_name", "apk_sha256"]

/-- Field names of `ApkContentFileInfo`. -/
def apkContentFileInfoFieldNames : List String :=
  ["relative_path", "filename", "extension", "content_text", "content_blob",
   "content_mode", "file_sha256"]

/-- Column set a freshly written parquet dataset carries. -/
def storeColumnNames : List String :=
  apkBasicInfoFieldNames ++ apkContentFileInfoFieldNames

/- ### Content store (`apk_converter.py`) -/

/-- One on-disk parquet dataset for one `app_id`: its column names, and the
list of row batches, one batch per successful `write_to_dataset` call (a
parquet dataset accumulates one file group per write). -/
structure ParquetTable where
  column_names : List String
  parts : List (List StoreRow)
deriving DecidableEq

/-- All rows of a dataset, in file order (what `pyarrow.parquet.read_table`
returns). -/
def ParquetTable.rows (t : ParquetTable) : List StoreRow := t.parts.flatten

/-- `APKConverter.validate_apk_content_table` (lines 163-171): the table must
contain every column of `ApkBasicInfo` and of `ApkContentFileInfo`. -/
def validate_apk_content_table (t : ParquetTable) : Bool :=
  apkBasicInfoFieldNames.all (fun f => t.column_names.contains f) &&
  apkContentFileInfoFieldNames.all (fun f => t.column_names.contains f)

/-- `APKConverter.apk_sha256_exists` (lines 126-133): scan the existing rows
for the given whole-package hash. -/
def apk_sha256_exists (t : ParquetTable) (apk_hash_sha256 : String) : Bool :=
  0 < (t.rows.filter (fun r => r.apk_sha256 == apk_hash_sha256)).length

/-- The parquet base directory: partitions keyed by `app_id`.  An entry being
present models `os.path.exists(parquet_base_path/app_id)`. -/
abbrev ParquetStore := List (String × ParquetTable)

/-- Look the partition directory of one `app_id` up. -/
def storeFind (s : ParquetStore) (appId : String) : Option ParquetTable :=
  (s.find? (fun p => p.1 == appId)).map (fun p => p.2)

/-- Replace (or create) the partition directory of one `app_id`. -/
def storeSet (s : ParquetStore) (appId : String) (t : ParquetTable) : ParquetStore :=
  s.filter (fun p => p.1 != appId) ++ [(appId, t)]

/-- The two exceptions `write_as_parquet` raises before writing anything:
line 154 ("Schema of the exisiting table is invalid") and line 156 ("This APK
already exists in the exisiting table"). -/
inductive WriteError where
  | SchemaError : WriteError
  | DuplicatePackageError : WriteError
deriving DecidableEq

/-- `APKConverter.write_as_parquet` (lines 136-160).  In append mode, when a
partition for the descriptor's `app_id` already exists, the existing table is
schema-validated, then scanned for the descriptor's `apk_sha256`; either
check failing raises before `write_to_dataset` runs.  Otherwise the new rows
are written as an additional batch (overwrite mode first removes the existing
partition tree). -/
def write_as_parquet (apk_basicinfo : ApkBasicInfo)
    (content_file_list : List ApkContentFileInfo) (store : ParquetStore)
    (append_if_exists : Bool) : Except WriteError ParquetStore :=
  let newRows := content_file_list.map (mkStoreRow apk_basicinfo)
  if append_if_exists then
    match storeFind store apk_basicinfo.app_id with
    | some t =>
      if !validate_apk_content_table t then
        .error .SchemaError
      else if apk_sha256_exists t apk_basicinfo.apk_sha256 then
        .error .DuplicatePackageError
      else
        .ok (storeSet store apk_basicinfo.app_id ⟨t.column_names, t.parts ++ [newRows]⟩)
    | none =>
      .ok (storeSet store apk_basicinfo.app_id ⟨storeColumnNames, [newRows]⟩)
  else
    .ok (storeSet store apk_basicinfo.app_id ⟨storeColumnNames, [newRows]⟩)

/-- Run one commit, keeping the store unchanged when the call raises (a
raised exception aborts `write_as_parquet` before any write happens). -/
def applyCommit (store : ParquetStore) (b : ApkBasicInfo)
    (files : List ApkContentFileInfo) (append_if_exists : Bool) :
    ParquetStore × Option WriteError :=
  match write_as_parquet b files store append_if_exists with
  | .ok s' => (s', none)
  | .error e => (store, some e)

/-- Store states reachable from an empty parquet base directory through
successful `write_as_parquet` commits (either mode). -/
inductive Reachable : ParquetStore → Prop
  | empty : Reachable []
  | step {s s' : ParquetStore} (b : ApkBasicInfo) (files : List ApkContentFileInfo)
      (mode : Bool) : Reachable s → write_as_parquet b files s mode = .ok s' →
      Reachable s'

/-- Rows carrying the same whole-package fingerprint all live in the same
committed batch: distinct batches of one partition never share a fingerprint,
so a fingerprint identifies at most one committed package per partition. -/
def FingerprintOncePerPartition (t : ParquetTable) : Prop :=
  t.parts.Pairwise (fun p q => ∀ r1 ∈ p, ∀ r2 ∈ q, r1.apk_sha256 ≠ r2.apk_sha256)

/-- Invariant carried by every reachable store: every partition has the full
column set and satisfies the fingerprint-uniqueness property. -/
def StoreInv (s : ParquetStore) : Prop :=
  ∀ A t, storeFind s A = some t →
    t.column_names = storeColumnNames ∧ FingerprintOncePerPartition t

/- ### Criterion matcher (`apk_analysis.py`, `identify_matching_criterion`) -/

/-- The fixed regex-metacharacter list of line 409 of `apk_analysis.py`. -/
def regex_signs : List String :=
  ["*", "..", "\x5c", "?", "\x7b", "\x7d", "[", "]", "+", "^", "$", "=", ">", "!", "&"]

/-- Loop body of `identify_matching_criterion` (lines 410-424), recursing over
the remaining criteria.  `rs pattern target` stands for the external call
`re.compile(pattern).search(target) is not None` (an unanchored search). -/
def identifyGo (rs : String → String → Bool) (line : String) (case_insensitive : Bool) :
    List String → Option String
  | [] => none
  | criterion0 :: rest =>
    let criterion_in_original_case := criterion0
    let criterion := if case_insensitive then lowerStr criterion0 else criterion0
    let criterion_is_regex := regex_signs.any (fun sign => strContains criterion sign)
    if criterion_is_regex then
      if rs (strReplace criterion "." "\x5c.") line then some criterion_in_original_case
      else identifyGo rs line case_insensitive rest
    else if strContains line criterion then some criterion_in_original_case
    else identifyGo rs line case_insensitive rest

/-- `identify_matching_criterion` (lines 406-425): lower-case the target when
`case_insensitive`, then return the first matching criterion in list order,
in its original case. -/
def identify_matching_criterion (rs : String → String → Bool) (line : String)
    (criterion_list : List String) (case_insensitive : Bool) : Option String :=
  identifyGo rs (if case_insensitive then lowerStr line else line)
    case_insensitive criterion_list

/-- Whether a (already case-folded) criterion contains one of the fixed regex
metacharacters, i.e. whether the matcher treats it as a regex pattern. -/
def criterionIsRegex (criterion : String) : Bool :=
  regex_signs.any (fun sign => strContains criterion sign)

/-- One criterion's match test against the lower-cased target, exactly as the
loop body of `identify_matching_criterion` performs it in case-insensitive
mode: regex search of the dot-escaped pattern when a metacharacter is
present, plain substring containment otherwise. -/
def criterionMatches (rs : String → String → Bool) (loweredLine : String)
    (criterion : String) : Bool :=
  if criterionIsRegex (lowerStr criterion) then
    rs (strReplace (lowerStr criterion) "." "\x5c.") loweredLine
  else
    strContains loweredLine (lowerStr criterion)

/- ### Tracker catalogs (`apk_analysis.py`, catalog reduction) -/

/-- Dataclass `TrackerEntry` (lines 29-34 of `apk_analysis.py`). -/
structure TrackerEntry where
  name : String
  domain_names : List String
  class_signatures : List String
  source : String
deriving DecidableEq

/-- `APKAnalysis.get_domain_to_tracker_map` (lines 369-376): flatten each
entry's domain list into (domain, tracker name) pairs in entry order, then
fold them into a mapping, inserting a pair only when its key is absent.  The
Python dict is modelled as an insertion-ordered association list. -/
def get_domain_to_tracker_map (tracker_list : List TrackerEntry) :
    List (String × String) :=
  let domain_trackers :=
    ((tracker_list.filter (fun t => 0 < t.domain_names.length)).map
      (fun t => t.domain_names.map (fun d => (d, t.name)))).flatten
  domain_trackers.foldl
    (fun m p => if m.any (fun q => q.1 == p.1) then m else m ++ [p]) []

/-- `APKAnalysis.get_classname_to_tracker_map` (lines 378-385): the same
reduction over the class-signature lists. -/
def get_classname_to_tracker_map (tracker_list : List TrackerEntry) :
    List (String × String) :=
  let classname_trackers :=
    ((tracker_list.filter (fun t => 0 < t.class_signatures.length)).map
      (fun t => t.class_signatures.map (fun c => (c, t.name)))).flatten
  classname_trackers.foldl
    (fun m p => if m.any (fun q => q.1 == p.1) then m else m ++ [p]) []

/-- The flattened (domain, entry name) pairs in entry order, as the
specification describes the catalog reduction's input. -/
def trackerDomainPairs (tracker_list : List TrackerEntry) : List (String × String) :=
  (tracker_list.map (fun t => t.domain_names.map (fun d => (d, t.name)))).flatten

/-- The flattened (class-signature fragment, entry name) pairs in entry order. -/
def trackerClassnamePairs (tracker_list : List TrackerEntry) : List (String × String) :=
  (tracker_list.map (fun t => t.class_signatures.map (fun c => (c, t.name)))).flatten

/-- Binding of a key in an association-list mapping: the value of the first
pair carrying the key. -/
def assocLookup (m : List (String × String)) (key : String) : Option String :=
  (m.find? (fun p => p.1 == key)).map (fun p => p.2)

/- ### Hasher/Classifier (`apk_converter.py`, `read_apk_content_file`) -/

/-- The fixed text-extension allow-list set in `APKConverter.__init__`
(lines 21-22 of `apk_converter.py`). -/
def ext_store_as_text : List String :=
  ["smali", "json", "xml", "txt", "log", "html", "htm", "js", "css", "yaml", "yml", "csv"]

/-- One file on disk: its full path and raw bytes. -/
structure RawFile where
  filename : String
  bytes : List Nat
deriving DecidableEq

/-- `APKConverter.read_apk_content_file` (lines 67-108).  `decodeText` stands
for Python's text-mode read of the bytes (`none` models a raised
`UnicodeDecodeError`, which the code catches and recovers from by keeping
binary mode); `sha256hex` stands for `hashlib.sha256(...).hexdigest()`.  The
record starts in blob mode holding the raw bytes and switches to text mode
only when the extension is allow-listed and decoding succeeds. -/
def read_apk_content_file (decodeText : List Nat → Option String)
    (sha256hex : List Nat → String) (file : RawFile) (apk_path : String) :
    ApkContentFileInfo :=
  let relative_path := (pySplit file.filename apk_path).getLastD ""
  let base_filename := (pySplit relative_path "/").getLastD ""
  let base_filename_ext := (pySplit base_filename ".").getLastD ""
  let file_hash := sha256hex file.bytes
  if ext_store_as_text.contains (lowerStr base_filename_ext) then
    match decodeText file.bytes with
    | some text =>
      { relative_path := relative_path, filename := base_filename,
        extension := base_filename_ext, content_text := some text,
        content_blob := none, content_mode := "text", file_sha256 := file_hash }
    | none =>
      { relative_path := relative_path, filename := base_filename,
        extension := base_filename_ext, content_text := none,
        content_blob := some file.bytes, content_mode := "blob",
        file_sha256 := file_hash }
  else
    { relative_path := relative_path, filename := base_filename,
      extension := base_filename_ext, content_text := none,
      content_blob := some file.bytes, content_mode := "blob",
      file_sha256 := file_hash }

/-- The extension the converter computes for a file: last `.`-piece of the
last `/`-piece of the part of the full path after the extraction root
(lines 75-77 of `apk_converter.py`). -/
def computedExtension (file : RawFile) (apk_path : String) : String :=
  (pySplit ((pySplit ((pySplit file.filename apk_path).getLastD "") "/").getLastD "") ".").getLastD ""

/- ### Derived class name (`apk_analysis.py`, `get_class_full_name`) -/

/-- `get_class_full_name` (lines 388-393 of `apk_analysis.py`): split the
relative path on the separator, keep the nonempty segments, drop the first of
them, return `None` when nothing remains; otherwise apply
`segments[-1].replace(".smali", "")` to the last segment and join the
segments with a dot. -/
def get_class_full_name (package_relative_path : String) : Option String :=
  let segments :=
    (((splitOnCharAux '/' package_relative_path.data []).filter
      (fun seg => 0 < seg.length)).drop 1)
  if segments.length ≤ 0 then none
  else
    let segments := segments.dropLast ++
      [replaceAllFuel ".smali".data [] (segments.getLastD []).length (segments.getLastD [])]
    some (String.mk (List.intercalate ['.'] segments))

/-- Modelled from the claim wording (not the code): split on the separator,
drop the LEADING empty segments and the first non-empty segment, return none
when no segments remain, strip one TRAILING `.smali` suffix from the last
segment only, and join with dots. -/
def claimed_class_full_name (package_relative_path : String) : Option String :=
  let segments :=
    ((splitOnCharAux '/' package_relative_path.data []).dropWhile
      (fun seg => seg.length = 0)).drop 1
  if segments.length = 0 then none
  else
    let lastSeg := segments.getLastD []
    let lastSeg :=
      if ".smali".data.isSuffixOf lastSeg then lastSeg.take (lastSeg.length - 6)
      else lastSeg
    some (String.mk (List.intercalate ['.'] (segments.dropLast ++ [lastSeg])))

/-- Amended description of the derivation: split on the separator, drop ALL
empty segments and then the first remaining segment, return none when no
segments remain, remove EVERY occurrence of `.smali` from the last segment,
and join with dots. -/
def amended_class_full_name (package_relative_path : String) : Option String :=
  let segments :=
    ((splitOnCharAux '/' package_relative_path.data []).filter
      (fun seg => !seg.isEmpty)).drop 1
  if segments.isEmpty then none
  else
    let lastSeg := segments.getLastD []
    some (String.mk (List.intercalate ['.']
      (segments.dropLast ++ [replaceAllFuel ".smali".data [] lastSeg.length lastSeg])))

/- ### Analysis driver (`appinspect_ops.py`, `AppInspectOps.analyse_apks`) -/

/-- Outcome of one driver invocation: the empty mapping `{}` returned by the
guard clauses, a task function's return value, or the `AttributeError` that
`getattr(analysis, task_name)` raises when no attribute has that name. -/
inductive AnalyseOutcome (α : Type) where
  | emptyDict : AnalyseOutcome α
  | taskReturn : α → AnalyseOutcome α
  | attributeError : AnalyseOutcome α
deriving DecidableEq

/-- The attributes of `APKAnalysis` whose name starts with `task_`: exactly
the six recipe methods defined in `apk_analysis.py`. -/
def apkAnalysisTaskNames : List String :=
  ["task_permission_scan", "task_url_extraction", "task_tracker_classname_scan",
   "task_tracker_domain_scan", "task_text_search", "task_code_scan"]

/-- `AppInspectOps.analyse_apks` (lines 43-61 of `appinspect_ops.py`): return
`{}` when the analysis config is absent, the task name is absent or empty
(falsy), or the name does not start with `task_`; otherwise resolve the
attribute — an `AttributeError` escapes when no `task_`-prefixed attribute
matches — and call it.  `runTask` stands for invoking the resolved method. -/
def analyse_apks {α : Type} (hasAnalysisConfig : Bool) (task_name : Option String)
    (runTask : String → α) : AnalyseOutcome α :=
  if !hasAnalysisConfig then .emptyDict
  else
    match task_name with
    | none => .emptyDict
    | some n =>
      if n = "" then .emptyDict
      else if !strStartsWith n "task_" then .emptyDict
      else if apkAnalysisTaskNames.contains n then .taskReturn (runTask n)
      else .attributeError

/- ### Analysis results and recipe guards (`apk_analysis.py`) -/

/-- Dataclass `APKAnalysisResult` (lines 22-26 of `apk_analysis.py`) with its
field defaults `total = 0`, `output_limit = 0`, `records = None`.  `ρ` is the
type of one materialized result row. -/
structure APKAnalysisResult (ρ : Type) where
  total : Int := 0
  output_limit : Int := 0
  records : Option (List ρ) := none
deriving DecidableEq

/-- `APKAnalysis.get_result_obj` (lines 260-267): cap the grouped rows to
`limit` when `limit > 0`, materialize them, and report the materialized count
and the requested cap. -/
def get_result_obj {ρ : Type} (groupped : List ρ) (limit : Int) : APKAnalysisResult ρ :=
  let limited := if 0 < limit then groupped.take limit.toNat else groupped
  { total := (limited.length : Int), output_limit := limit, records := some limited }

/-- Guard structure of `APKAnalysis.task_text_search` (lines 188-213): an
empty (falsy) search-term list returns a default `APKAnalysisResult`;
otherwise the spark pipeline runs and its grouped rows — abstracted as the
thunk `groupped` — are materialized through `get_result_obj`. -/
def task_text_search {ρ : Type} (groupped : Unit → List ρ) (search_terms : List String)
    (limit : Int) : APKAnalysisResult ρ :=
  if search_terms.isEmpty then {}
  else if search_terms.length ≤ 0 then {}
  else get_result_obj (groupped ()) limit

/-- Guard structure of `APKAnalysis.task_code_scan` (lines 216-256): the same
fail-closed guards on the search-term list. -/
def task_code_scan {ρ : Type} (groupped : Unit → List ρ) (search_terms : List String)
    (limit : Int) : APKAnalysisResult ρ :=
  if search_terms.isEmpty then {}
  else if search_terms.length ≤ 0 then {}
  else get_result_obj (groupped ()) limit

/-- Guard structure of `APKAnalysis.task_tracker_domain_scan` (lines 150-153):
a falsy (`None` or empty) catalog source name returns a default result. -/
def task_tracker_domain_scan {ρ : Type} (groupped : Unit → List ρ)
    (tracker_list_name : Option String) (limit : Int) : APKAnalysisResult ρ :=
  match tracker_list_name with
  | none => {}
  | some nm => if nm = "" then {} else get_result_obj (groupped ()) limit

/-- Guard structure of `APKAnalysis.task_tracker_classname_scan`
(lines 116-119): the same fail-closed guard on the catalog source name. -/
def task_tracker_classname_scan {ρ : Type} (groupped : Unit → List ρ)
    (tracker_list_name : Option String) (limit : Int) : APKAnalysisResult ρ :=
  match tracker_list_name with
  | none => {}
  | some nm => if nm = "" then {} else get_result_obj (groupped ()) limit

/- ### URL extraction (`apk_analysis.py`, `task_url_extraction`, lines 85-113)

The three Java regular expressions the recipe relies on are given procedural
models below.  The url pattern
  (https?):\/[-a-zA-Z0-9+&@#\/%?=~_|!:,.;]*[-a-zA-Z0-9+&@#\/%=~_|]
is an unanchored leftmost search; the domain pattern
  (https?):\/\/([-a-zA-Z0-9+&@#%?=~_|!:,.;]+)\/
extracts capture group 2; the FQDN pattern
  ^(?:[a-z0-9](?:[a-z0-9-]{0,61}[a-z0-9])?\.)+[a-z0-9][a-z0-9-]{0,61}[a-z0-9]$
is anchored.  Because each character class excludes the character that must
follow it, the greedy runs never need backtracking beyond trimming the tail,
so the procedural forms below match the Java engine's results exactly. -/

/-- Membership in the url body class `[-a-zA-Z0-9+&@#/%?=~_|!:,.;]`. -/
def isUrlBodyChar (c : Char) : Bool :=
  (c == '-') || (('a' ≤ c) && (c ≤ 'z')) || (('A' ≤ c) && (c ≤ 'Z')) ||
  (('0' ≤ c) && (c ≤ '9')) || (c == '+') || (c == '&') || (c == '@') ||
  (c == '#') || (c == '/') || (c == '%') || (c == '?') || (c == '=') ||
  (c == '~') || (c == '_') || (c == '|') || (c == '!') || (c == ':') ||
  (c == ',') || (c == '.') || (c == ';')

/-- Membership in the url final-character class `[-a-zA-Z0-9+&@#/%=~_|]`. -/
def isUrlEndChar (c : Char) : Bool :=
  (c == '-') || (('a' ≤ c) && (c ≤ 'z')) || (('A' ≤ c) && (c ≤ 'Z')) ||
  (('0' ≤ c) && (c ≤ '9')) || (c == '+') || (c == '&') || (c == '@') ||
  (c == '#') || (c == '/') || (c == '%') || (c == '=') || (c == '~') ||
  (c == '_') || (c == '|')

/-- Membership in the domain authority class `[-a-zA-Z0-9+&@#%?=~_|!:,.;]`
(the url body class without the slash). -/
def isDomainChar (c : Char) : Bool := isUrlBodyChar c && !(c == '/')

/-- Try to match the url pattern at the head of `l`: a scheme prefix
(`https:/` tried before `http:/`, as the greedy `s?` does), then the longest
body-class run trimmed back to the last final-class character. -/
def urlMatchAt (l : List Char) : Option (List Char) :=
  let tryScheme := fun (pre : List Char) =>
    if pre.isPrefixOf l then
      let run := (l.drop pre.length).takeWhile isUrlBodyChar
      let trimmed := (run.reverse.dropWhile (fun c => !isUrlEndChar c)).reverse
      if trimmed.isEmpty then none else some (pre ++ trimmed)
    else none
  match tryScheme "https:/".data with
  | some m => some m
  | none => tryScheme "http:/".data

/-- Leftmost unanchored search with the url pattern (fuel bounds the number
of start positions tried). -/
def urlSearchFuel : Nat → List Char → Option (List Char)
  | 0, _ => none
  | _ + 1, [] => none
  | fuel + 1, c :: rest =>
    match urlMatchAt (c :: rest) with
    | some m => some m
    | none => urlSearchFuel fuel rest

/-- `sfunc.regexp_extract(line, url pattern, 0)` of line 95: the whole match
of the leftmost occurrence, or the empty string when nothing matches. -/
def regexp_extract_url (line : String) : String :=
  match urlSearchFuel (line.data.length + 1) line.data with
  | some m => String.mk m
  | none => ""

/-- Try to match the domain pattern at the head of `l`: a `scheme://` prefix,
then a nonempty authority-class run that must be followed by a slash; the
returned value is capture group 2 (the authority). -/
def domainMatchAt (l : List Char) : Option (List Char) :=
  let tryScheme := fun (pre : List Char) =>
    if pre.isPrefixOf l then
      let restAll := l.drop pre.length
      let run := restAll.takeWhile isDomainChar
      if run.isEmpty then none
      else if (restAll.drop run.length).head? = some '/' then some run
      else none
    else none
  match tryScheme "https://".data with
  | some m => some m
  | none => tryScheme "http://".data

/-- Leftmost unanchored search with the domain pattern. -/
def domainSearchFuel : Nat → List Char → Option (List Char)
  | 0, _ => none
  | _ + 1, [] => none
  | fuel + 1, c :: rest =>
    match domainMatchAt (c :: rest) with
    | some m => some m
    | none => domainSearchFuel fuel rest

/-- `sfunc.regexp_extract(url, domain pattern, 2)` of line 100. -/
def regexp_extract_domain (url : String) : String :=
  match domainSearchFuel (url.data.length + 1) url.data with
  | some m => String.mk m
  | none => ""

/-- Membership in `[a-z0-9]`. -/
def isLowerAlnum (c : Char) : Bool :=
  (('a' ≤ c) && (c ≤ 'z')) || (('0' ≤ c) && (c ≤ '9'))

/-- Membership in `[a-z0-9-]` (letters, digits, hyphen). -/
def isLdh (c : Char) : Bool := isLowerAlnum c || (c == '-')

/-- One FQDN label `[a-z0-9](?:[a-z0-9-]{0,61}[a-z0-9])?`: a single
alphanumeric, or 2 to 63 characters with alphanumeric ends and
letter-digit-hyphen interior. -/
def isFqdnLabel (s : List Char) : Bool :=
  match s with
  | [] => false
  | [c] => isLowerAlnum c
  | c :: rest =>
    isLowerAlnum c && rest.length ≤ 62 && rest.dropLast.all isLdh &&
    isLowerAlnum (rest.getLastD 'a')

/-- The final FQDN label `[a-z0-9][a-z0-9-]{0,61}[a-z0-9]`: 2 to 63
characters with alphanumeric ends. -/
def isFqdnTld (s : List Char) : Bool :=
  match s with
  | [] => false
  | [_] => false
  | c :: rest =>
    isLowerAlnum c && rest.length ≤ 62 && rest.dropLast.all isLdh &&
    isLowerAlnum (rest.getLastD 'a')

/-- `rlike` test of line 103: the anchored FQDN pattern holds exactly when
the dot-separated pieces form one or more valid labels followed by a valid
final label (labels cannot contain dots, so any successful parse of the
anchored pattern splits at the dots). -/
def fqdn_rlike (domain : String) : Bool :=
  let parts := splitOnCharAux '.' domain.data []
  2 ≤ parts.length && (parts.dropLast.all isFqdnLabel) && isFqdnTld (parts.getLastD [])

/-- Per-line model of `task_url_extraction` (lines 93-103 of
`apk_analysis.py`) after the line split: keep lines containing `const-string`
and a scheme, extract the url, drop bare-scheme urls, extract the domain and
keep the row only when the domain passes the FQDN test.  Returns the (url,
domain) columns of a retained row. -/
def processUrlLine (line : String) : Option (String × String) :=
  if !strContains line "const-string" then none
  else if !(strContains line "http://" || strContains line "https://") then none
  else
    let url := regexp_extract_url line
    if url == "https://" then none
    else if url == "http://" then none
    else
      let domain := regexp_extract_domain url
      if fqdn_rlike domain then some (url, domain) else none

/- ### Store lemmas -/

theorem find?_key_filter_ne (s : ParquetStore) (A A' : String) (h : A' ≠ A) :
    (s.filter (fun p => p.1 != A)).find? (fun p => p.1 == A') =
      s.find? (fun p => p.1 == A') := by
  induction s with
  | nil => rfl
  | cons p s ih =>
    have hAA' : (A == A') = false := beq_eq_false_iff_ne.mpr (fun e => h e.symm)
    by_cases hA : p.1 = A
    · have hp' : p.1 ≠ A' := by
        rw [hA]
        exact fun e => h e.symm
      simp [List.filter_cons, List.find?_cons, hA, hp', ih, hAA']
    · by_cases hp : p.1 = A'
      · simp [List.filter_cons, List.find?_cons, hA, hp, ih, h, hAA']
      · simp [List.filter_cons, List.find?_cons, hA, hp, ih, hAA']

theorem storeFind_storeSet_self (s : ParquetStore) (A : String) (t : ParquetTable) :
    storeFind (storeSet s A t) A = some t := by
  have h1 : (s.filter (fun p => p.1 != A)).find? (fun p => p.1 == A) = none := by
    rw [List.find?_eq_none]
    intro x hx
    have hx2 := (List.mem_filter.mp hx).2
    simp only [bne_iff_ne, ne_eq] at hx2
    simp [hx2]
  simp [storeFind, storeSet, List.find?_append, h1, Option.or, List.find?]

theorem storeFind_storeSet_ne (s : ParquetStore) (A A' : String) (t : ParquetTable)
    (h : A' ≠ A) : storeFind (storeSet s A t) A' = storeFind s A' := by
  have h2 : ¬ (A = A') := fun e => h e.symm
  have hAA' : (A == A') = false := beq_eq_false_iff_ne.mpr h2
  simp only [storeFind, storeSet, List.find?_append, find?_key_filter_ne s A A' h,
    List.find?, hAA']
  cases s.find? (fun p => p.1 == A') <;> rfl

theorem validate_of_full_columns (t : ParquetTable)
    (h : t.column_names = storeColumnNames) :
    validate_apk_content_table t = true := by
  simp only [validate_apk_content_table, h]
  decide

theorem no_row_of_apk_sha256_exists_false {t : ParquetTable} {F : String}
    (h : apk_sha256_exists t F = false) : ∀ r ∈ t.rows, r.apk_sha256 ≠ F := by
  intro r hr hEq
  have h0 : ¬ (0 < (t.rows.filter (fun r => r.apk_sha256 == F)).length) :=
    of_decide_eq_false h
  have h1 : t.rows.filter (fun r => r.apk_sha256 == F) = [] :=
    List.length_eq_zero.mp (Nat.eq_zero_of_not_pos h0)
  have h2 : r ∈ t.rows.filter (fun r => r.apk_sha256 == F) :=
    List.mem_filter.mpr ⟨hr, by simp [hEq]⟩
  rw [h1] at h2
  exact absurd h2 (List.not_mem_nil r)

theorem storeInv_of_write {s s' : ParquetStore} {b : ApkBasicInfo}
    {files : List ApkContentFileInfo} {mode : Bool} (hs : StoreInv s)
    (hw : write_as_parquet b files s mode = .ok s') : StoreInv s' := by
  have fresh_inv : ∀ A0,
      StoreInv (storeSet s A0 ⟨storeColumnNames, [files.map (mkStoreRow b)]⟩) := by
    intro A0 A t h
    by_cases hA : A = A0
    · subst hA
      rw [storeFind_storeSet_self] at h
      cases h
      exact ⟨rfl, List.pairwise_singleton _ _⟩
    · rw [storeFind_storeSet_ne _ _ _ _ hA] at h
      exact hs A t h
  unfold write_as_parquet at hw
  cases mode with
  | false =>
    simp only [Bool.false_eq_true, if_false] at hw
    cases hw
    exact fresh_inv b.app_id
  | true =>
    simp only [if_true] at hw
    split at hw
    case h_1 t0 hf =>
      split at hw
      · exact absurd hw (by simp)
      · split at hw
        · exact absurd hw (by simp)
        case isFalse hvneg hdupneg =>
          have hdup : apk_sha256_exists t0 b.apk_sha256 = false := by
            simpa using hdupneg
          obtain ⟨hcol, hpw⟩ := hs b.app_id t0 hf
          cases hw
          intro A t h
          by_cases hA : A = b.app_id
          · subst hA
            rw [storeFind_storeSet_self] at h
            cases h
            refine ⟨hcol, ?_⟩
            rw [FingerprintOncePerPartition, List.pairwise_append]
            refine ⟨hpw, List.pairwise_singleton _ _, ?_⟩
            intro p hp q hq r1 hr1 r2 hr2
            have hq' : q = files.map (mkStoreRow b) := by simpa using hq
            subst hq'
            obtain ⟨c, _, rfl⟩ := List.mem_map.mp hr2
            have hmem : r1 ∈ t0.rows := List.mem_flatten.mpr ⟨p, hp, hr1⟩
            exact no_row_of_apk_sha256_exists_false hdup r1 hmem
          · rw [storeFind_storeSet_ne _ _ _ _ hA] at h
            exact hs A t h
    case h_2 hf =>
      cases hw
      exact fresh_inv b.app_id

theorem reachable_storeInv {s : ParquetStore} (h : Reachable s) : StoreInv s := by
  induction h with
  | empty =>
    intro A t h
    simp [storeFind, List.find?] at h
  | step b files mode _ hw ih => exact storeInv_of_write ih hw

/- ### Claim C1 -/

/-- C1: for every app_id and package fingerprint already committed to that
app's partition, a subsequent Append commit of a descriptor carrying the same
app_id and fingerprint fails with `DuplicatePackageError` and leaves the
store unchanged; and in every reachable store state a whole-package
fingerprint appears in at most one committed batch per app_id partition. -/
theorem C1_duplicate_append_rejected {s : ParquetStore} (hreach : Reachable s)
    (b : ApkBasicInfo) (files : List ApkContentFileInfo) (t : ParquetTable)
    (ht : storeFind s b.app_id = some t)
    (hdup : apk_sha256_exists t b.apk_sha256 = true) :
    applyCommit s b files true = (s, some WriteError.DuplicatePackageError) ∧
    (∀ A u, storeFind s A = some u → FingerprintOncePerPartition u) := by
  have hinv := reachable_storeInv hreach
  obtain ⟨hcol, _⟩ := hinv b.app_id t ht
  have hval : validate_apk_content_table t = true := validate_of_full_columns t hcol
  refine ⟨?_, fun A u hu => (hinv A u hu).2⟩
  unfold applyCommit write_as_parquet
  simp only [if_true, ht, hval, hdup, Bool.not_true, Bool.false_eq_true, if_false]

def c1Basic : ApkBasicInfo := ⟨"com.test.app", 3, "1.0", "f0f0"⟩

def c1File : ApkContentFileInfo :=
  ⟨"/AndroidManifest.xml", "AndroidManifest.xml", "xml", some "<manifest/>",
   none, "text", "ab12"⟩

def c1Store : ParquetStore :=
  [("com.test.app", ⟨storeColumnNames, [[mkStoreRow c1Basic c1File]]⟩)]

/-- Witness for C1: committing the same package to `com.test.app` a second
time is rejected with `DuplicatePackageError` and the store keeps its rows. -/
theorem C1_duplicate_append_rejected_witness :
    applyCommit c1Store c1Basic [c1File] true =
      (c1Store, some WriteError.DuplicatePackageError) := by
  have hreach : Reachable c1Store :=
    Reachable.step c1Basic [c1File] true Reachable.empty rfl
  exact (C1_duplicate_append_rejected hreach c1Basic [c1File]
    ⟨storeColumnNames, [[mkStoreRow c1Basic c1File]]⟩ rfl (by decide)).1

/- ### Claim C9 -/

/-- C9: when an Append commit targets an existing partition whose schema is
missing any field of the descriptor or file-record models, the commit fails
with `SchemaError` and writes no rows; the schema validation runs before the
duplicate-fingerprint scan, so `SchemaError` wins even when the incoming
fingerprint is also already present. -/
theorem C9_schema_validated_before_dedup (s : ParquetStore) (b : ApkBasicInfo)
    (files : List ApkContentFileInfo) (t : ParquetTable)
    (ht : storeFind s b.app_id = some t)
    (f : String) (hf : f ∈ storeColumnNames)
    (habs : t.column_names.contains f = false) :
    applyCommit s b files true = (s, some WriteError.SchemaError) := by
  have hval : validate_apk_content_table t = false := by
    rw [validate_apk_content_table]
    rcases List.mem_append.mp hf with hmem | hmem
    · have h1 : apkBasicInfoFieldNames.all (fun f => t.column_names.contains f) = false := by
        rw [Bool.eq_false_iff]
        intro hall
        have := List.all_eq_true.mp hall f hmem
        rw [habs] at this
        exact Bool.false_ne_true this
      rw [h1, Bool.false_and]
    · have h1 : apkContentFileInfoFieldNames.all (fun f => t.column_names.contains f) = false := by
        rw [Bool.eq_false_iff]
        intro hall
        have := List.all_eq_true.mp hall f hmem
        rw [habs] at this
        exact Bool.false_ne_true this
      rw [h1, Bool.and_false]
  unfold applyCommit write_as_parquet
  simp only [if_true, ht, hval, Bool.not_false, if_true]

def c9Basic : ApkBasicInfo := ⟨"app.nine", 1, "1", "deadbeef"⟩

def c9Table : ParquetTable :=
  ⟨["app_id"], [[mkStoreRow c9Basic ⟨"/a", "a", "a", none, some [1], "blob", "h1"⟩]]⟩

def c9Store : ParquetStore := [("app.nine", c9Table)]

/-- Witness for C9: a partition whose stored schema lacks `version_code` and
which even already holds the incoming fingerprint still fails with
`SchemaError` (not `DuplicatePackageError`), writing nothing. -/
theorem C9_schema_validated_before_dedup_witness :
    apk_sha256_exists c9Table "deadbeef" = true ∧
    applyCommit c9Store c9Basic [] true = (c9Store, some WriteError.SchemaError) :=
  ⟨by decide,
   C9_schema_validated_before_dedup c9Store c9Basic [] c9Table rfl
     "version_code" (by decide) (by decide)⟩

/- ### Claim C2 -/

theorem identifyGo_eq_find? (rs : String → String → Bool) (L : String)
    (criteria : List String) :
    identifyGo rs L true criteria = criteria.find? (criterionMatches rs L) := by
  induction criteria with
  | nil => rfl
  | cons c rest ih =>
    simp only [identifyGo, criterionMatches, criterionIsRegex, List.find?, if_true]
    by_cases hreg : (regex_signs.any fun sign => strContains (lowerStr c) sign) = true
    · by_cases hrs : rs (strReplace (lowerStr c) "." "\x5c.") L = true
      · simp [hreg, hrs]
      · have hrs' : rs (strReplace (lowerStr c) "." "\x5c.") L = false := by
          simpa using hrs
        simp [hreg, hrs', ih]
    · have hreg' : (regex_signs.any fun sign => strContains (lowerStr c) sign) = false := by
        simpa using hreg
      by_cases hsub : strContains L (lowerStr c) = true
      · simp [hreg', hsub]
      · have hsub' : strContains L (lowerStr c) = false := by simpa using hsub
        simp [hreg', hsub', ih]

/-- C2: in case-insensitive mode the matcher lower-cases the target and
returns the first criterion (in list order, in its original case) that
matches: a criterion containing one of the fixed regex metacharacters is
matched by an unanchored regex search of its dot-escaped form, any other
criterion by plain substring containment; in particular an earlier matching
regex-mode criterion beats any later matching literal one. -/
theorem C2_first_matching_criterion (rs : String → String → Bool) (target : String)
    (criteria : List String) :
    identify_matching_criterion rs target criteria true =
      criteria.find? (fun c =>
        if criterionIsRegex (lowerStr c) then
          rs (strReplace (lowerStr c) "." "\x5c.") (lowerStr target)
        else strContains (lowerStr target) (lowerStr c)) ∧
    (∀ c1 c2 c3 : String, criterionMatches rs (lowerStr target) c1 = false →
      criterionIsRegex (lowerStr c2) = true →
      criterionMatches rs (lowerStr target) c2 = true →
      identify_matching_criterion rs target [c1, c2, c3] true = some c2) := by
  constructor
  · show identify_matching_criterion rs target criteria true =
      criteria.find? (criterionMatches rs (lowerStr target))
    rw [identify_matching_criterion]
    simp only [if_true]
    exact identifyGo_eq_find? rs (lowerStr target) criteria
  · intro c1 c2 c3 h1 _ h2
    rw [identify_matching_criterion]
    simp only [if_true]
    rw [identifyGo_eq_find? rs (lowerStr target) [c1, c2, c3]]
    simp [List.find?, h1, h2]

/-- Substring-containment stand-in for the regex search oracle, used by the
witness below. -/
def rsSub : String → String → Bool := fun pat tgt => strContains tgt pat

/-- Witness for C2: with a non-matching literal first, a matching
regex-special criterion second and a matching plain literal third, the
second criterion is returned, in its original case. -/
theorem C2_first_matching_criterion_witness :
    identify_matching_criterion rsSub "x A+B x" ["zzz", "A+B", "a"] true = some "A+B" :=
  (C2_first_matching_criterion rsSub "x A+B x" ["zzz", "A+B", "a"]).2 "zzz" "A+B" "a"
    (by decide) (by decide) (by decide)

/- ### Claim C3 -/

theorem foldIns_find? (ps acc : List (String × String)) (k : String) :
    ((ps.foldl (fun m p => if m.any (fun q => q.1 == p.1) then m else m ++ [p]) acc).find?
        (fun p => p.1 == k)) =
      (acc.find? (fun p => p.1 == k)).or (ps.find? (fun p => p.1 == k)) := by
  induction ps generalizing acc with
  | nil =>
    rw [List.foldl_nil, List.find?_nil, Option.or_none]
  | cons p ps ih =>
    rw [List.foldl_cons, ih]
    by_cases hin : acc.any (fun q => q.1 == p.1) = true
    · rw [if_pos hin]
      by_cases hk : p.1 = k
      · obtain ⟨q, hq, hqk⟩ := List.any_eq_true.mp hin
        cases hfa : acc.find? (fun r => r.1 == k) with
        | none =>
          exfalso
          apply List.find?_eq_none.mp hfa q hq
          rw [beq_iff_eq] at hqk ⊢
          rw [hqk, hk]
        | some v => rfl
      · rw [List.find?_cons_of_neg _ (by simp [hk])]
    · rw [if_neg hin, List.find?_append, Option.or_assoc]
      congr 1
      by_cases hk : p.1 = k
      · rw [List.find?_cons_of_pos _ (by simp [hk]),
          List.find?_cons_of_pos _ (by simp [hk])]
        rfl
      · rw [List.find?_cons_of_neg _ (by simp [hk]),
          List.find?_cons_of_neg _ (by simp [hk])]
        rfl

theorem domain_pairs_flatten (tl : List TrackerEntry) :
    ((tl.filter (fun t => 0 < t.domain_names.length)).map
      (fun t => t.domain_names.map (fun d => (d, t.name)))).flatten =
      trackerDomainPairs tl := by
  induction tl with
  | nil => rfl
  | cons e tl ih =>
    by_cases he : 0 < e.domain_names.length
    · simp [List.filter_cons, he, ih, trackerDomainPairs]
    · have he0 : e.domain_names = [] :=
        List.length_eq_zero.mp (Nat.eq_zero_of_not_pos he)
      simp [List.filter_cons, he, ih, trackerDomainPairs, he0]

theorem classname_pairs_flatten (tl : List TrackerEntry) :
    ((tl.filter (fun t => 0 < t.class_signatures.length)).map
      (fun t => t.class_signatures.map (fun c => (c, t.name)))).flatten =
      trackerClassnamePairs tl := by
  induction tl with
  | nil => rfl
  | cons e tl ih =>
    by_cases he : 0 < e.class_signatures.length
    · simp [List.filter_cons, he, ih, trackerClassnamePairs]
    · have he0 : e.class_signatures = [] :=
        List.length_eq_zero.mp (Nat.eq_zero_of_not_pos he)
      simp [List.filter_cons, he, ih, trackerClassnamePairs, he0]

theorem find?_const_pair_mem (l : List String) (n d : String) (hd : d ∈ l) :
    (((l.map (fun x => (x, n))).find? (fun p => p.1 == d)).map (fun p => p.2)) = some n := by
  induction l with
  | nil => cases hd
  | cons x l ih =>
    by_cases hx : x = d
    · rw [List.map_cons, List.find?_cons_of_pos _ (by simp [hx])]
      rfl
    · have hd' : d ∈ l := by
        cases hd with
        | head => exact absurd rfl hx
        | tail _ h => exact h
      rw [List.map_cons, List.find?_cons_of_neg _ (by simp [hx])]
      exact ih hd'

/-- C3: the catalog reduction maps are insert-if-absent folds over the
flattened (key, entry name) pairs taken in entry order, so every key is
bound to the name of the FIRST entry that contributed it and later
duplicates are dropped; in particular two entries sharing a domain map that
domain to the first entry's name. -/
theorem C3_catalog_first_wins (tracker_list : List TrackerEntry) (key : String) :
    assocLookup (get_domain_to_tracker_map tracker_list) key =
      ((trackerDomainPairs tracker_list).find? (fun p => p.1 == key)).map (fun p => p.2) ∧
    assocLookup (get_classname_to_tracker_map tracker_list) key =
      ((trackerClassnamePairs tracker_list).find? (fun p => p.1 == key)).map (fun p => p.2) ∧
    (∀ (e1 e2 : TrackerEntry) (d : String), d ∈ e1.domain_names →
      assocLookup (get_domain_to_tracker_map [e1, e2]) d = some e1.name) := by
  have main : ∀ (tl : List TrackerEntry) (k : String),
      assocLookup (get_domain_to_tracker_map tl) k =
        ((trackerDomainPairs tl).find? (fun p => p.1 == k)).map (fun p => p.2) := by
    intro tl k
    simp only [assocLookup, get_domain_to_tracker_map]
    rw [domain_pairs_flatten, foldIns_find?, List.find?_nil, Option.none_or]
  refine ⟨main tracker_list key, ?_, ?_⟩
  · simp only [assocLookup, get_classname_to_tracker_map]
    rw [classname_pairs_flatten, foldIns_find?, List.find?_nil, Option.none_or]
  · intro e1 e2 d hd
    rw [main [e1, e2] d]
    have hpairs : trackerDomainPairs [e1, e2] =
        (e1.domain_names.map (fun x => (x, e1.name))) ++
          (e2.domain_names.map (fun x => (x, e2.name))) := by
      simp [trackerDomainPairs]
    rw [hpairs, List.find?_append]
    have hme := find?_const_pair_mem e1.domain_names e1.name d hd
    cases hf : (e1.domain_names.map (fun x => (x, e1.name))).find? (fun p => p.1 == d) with
    | none =>
      rw [hf] at hme
      exact absurd hme (by simp)
    | some v =>
      rw [hf] at hme
      exact hme

def c3E1 : TrackerEntry := ⟨"TrackerOne", ["ads.example.com"], [], "src"⟩

def c3E2 : TrackerEntry := ⟨"TrackerTwo", ["ads.example.com"], [], "src"⟩

/-- Witness for C3: two entries sharing the domain `ads.example.com` with
different names; the reduction binds the domain to the first entry's name. -/
theorem C3_catalog_first_wins_witness :
    assocLookup (get_domain_to_tracker_map [c3E1, c3E2]) "ads.example.com" =
      some "TrackerOne" :=
  (C3_catalog_first_wins [] "").2.2 c3E1 c3E2 "ads.example.com" (by decide)

/- ### Claim C4 -/

/-- C4: a record is in text mode exactly when the file's extension
(case-insensitively) is in the fixed allow-list AND the bytes decode as
text; in that case the text content is exactly the decoded content and the
blob field is null; in every other case the record is in blob mode, the blob
field holds the raw bytes byte-for-byte and the text field is null — a
decode failure is recovered locally, never surfaced. -/
theorem C4_text_blob_classification (decodeText : List Nat → Option String)
    (sha256hex : List Nat → String) (file : RawFile) (apk_path : String) :
    ((read_apk_content_file decodeText sha256hex file apk_path).content_mode = "text" ↔
      (ext_store_as_text.contains (lowerStr (computedExtension file apk_path)) = true ∧
        (decodeText file.bytes).isSome = true)) ∧
    ((read_apk_content_file decodeText sha256hex file apk_path).content_mode = "text" →
      (read_apk_content_file decodeText sha256hex file apk_path).content_text =
          decodeText file.bytes ∧
      (read_apk_content_file decodeText sha256hex file apk_path).content_blob = none) ∧
    ((read_apk_content_file decodeText sha256hex file apk_path).content_mode ≠ "text" →
      (read_apk_content_file decodeText sha256hex file apk_path).content_mode = "blob" ∧
      (read_apk_content_file decodeText sha256hex file apk_path).content_blob =
          some file.bytes ∧
      (read_apk_content_file decodeText sha256hex file apk_path).content_text = none) := by
  simp only [read_apk_content_file, computedExtension]
  by_cases hext : lowerStr
      ((pySplit ((pySplit ((pySplit file.filename apk_path).getLastD "") "/").getLastD "")
        ".").getLastD "") ∈ ext_store_as_text
  · rw [if_pos (List.elem_iff.mpr hext)]
    cases hdec : decodeText file.bytes with
    | some text =>
      simp [hdec]
      simpa using hext
    | none => simp [hext, hdec]
  · rw [if_neg (fun hc => hext (List.elem_iff.mp hc))]
    simp [hext]
    intro hc
    exact absurd hc (by simpa using hext)

def c4File : RawFile := ⟨"/apk/AndroidManifest.xml", [60, 97, 62]⟩

def c4Decode : List Nat → Option String := fun _ => some "<a>"

def c4Sha : List Nat → String := fun _ => "hh"

/-- Witness for C4: an allow-listed `xml` file whose bytes decode is stored
in text mode with the decoded content and a null blob. -/
theorem C4_text_blob_classification_witness :
    (read_apk_content_file c4Decode c4Sha c4File "/apk").content_mode = "text" ∧
    (read_apk_content_file c4Decode c4Sha c4File "/apk").content_text = some "<a>" ∧
    (read_apk_content_file c4Decode c4Sha c4File "/apk").content_blob = none := by
  have h := C4_text_blob_classification c4Decode c4Sha c4File "/apk"
  have hmode : (read_apk_content_file c4Decode c4Sha c4File "/apk").content_mode = "text" :=
    h.1.mpr ⟨by decide, by decide⟩
  exact ⟨hmode, (h.2.1 hmode).1, (h.2.1 hmode).2⟩

/- ### Claim C5 -/

/-- C5 counterexample: on the path `/smali/com//a.smalib` the code's
derivation (which removes ALL empty segments and EVERY occurrence of
`.smali` in the last segment) yields `com.ab`, while the derivation the
claim describes (drop only LEADING empty segments, strip only a TRAILING
`.smali` suffix) yields `com..a.smalib`, so the claim as stated is false. -/
theorem C5_class_name_counterexample :
    get_class_full_name "/smali/com//a.smalib" = some "com.ab" ∧
    claimed_class_full_name "/smali/com//a.smalib" = some "com..a.smalib" ∧
    get_class_full_name "/smali/com//a.smalib" ≠
      claimed_class_full_name "/smali/com//a.smalib" := by
  refine ⟨by decide, by decide, by decide⟩

/-- C5 amended: the derivation splits the path on the separator, drops all
empty segments and then the first remaining segment, returns none when no
segments remain, removes every occurrence of `.smali` from the last
segment, and joins the segments with dots; on `/smali/com/example/app/Main.smali`
it yields `com.example.app.Main` and on `/smali` it yields none. -/
theorem C5_class_name_amended (path : String) :
    get_class_full_name path = amended_class_full_name path ∧
    get_class_full_name "/smali/com/example/app/Main.smali" =
      some "com.example.app.Main" ∧
    get_class_full_name "/smali" = none := by
  refine ⟨?_, by decide, by decide⟩
  simp only [get_class_full_name, amended_class_full_name]
  have hfil : ((splitOnCharAux '/' path.data []).filter (fun seg => 0 < seg.length)) =
      ((splitOnCharAux '/' path.data []).filter (fun seg => !seg.isEmpty)) := by
    apply List.filter_congr
    intro x _
    cases x <;> simp
  rw [hfil]
  cases hseg : ((splitOnCharAux '/' path.data []).filter (fun seg => !seg.isEmpty)).drop 1 with
  | nil => simp
  | cons a l => simp

/- ### Claim C6 -/

/-- C6 counterexample: the driver does NOT return the empty mapping for
every unknown recipe name — a name that carries the `task_` prefix but
matches no recipe (here `task_bogus`) makes `getattr` raise
`AttributeError`, so the claim as stated is false. -/
theorem C6_unknown_task_counterexample :
    analyse_apks true (some "task_bogus") (fun _ => (0 : Nat)) =
      AnalyseOutcome.attributeError ∧
    (AnalyseOutcome.attributeError : AnalyseOutcome Nat) ≠
      AnalyseOutcome.emptyDict := by
  refine ⟨by decide, by decide⟩

/-- C6 amended: the driver returns the empty mapping without raising when
the analysis config is absent, the task name is absent or empty, or the
task name does not start with `task_`; a name naming one of the six recipes
is dispatched; and a recipe invoked without its required search terms or
catalog source name returns an empty `AnalysisResult` rather than erroring.
(An unknown name that does start with `task_` raises `AttributeError`.) -/
theorem C6_driver_and_guards {α ρ : Type} (runTask : String → α)
    (groupped : Unit → List ρ) (lim : Int) :
    analyse_apks true none runTask = AnalyseOutcome.emptyDict ∧
    analyse_apks true (some "") runTask = AnalyseOutcome.emptyDict ∧
    analyse_apks false (some "task_text_search") runTask = AnalyseOutcome.emptyDict ∧
    (∀ n : String, strStartsWith n "task_" = false →
      analyse_apks true (some n) runTask = AnalyseOutcome.emptyDict) ∧
    (∀ n : String, n ∈ apkAnalysisTaskNames →
      analyse_apks true (some n) runTask = AnalyseOutcome.taskReturn (runTask n)) ∧
    task_text_search groupped [] lim = ({} : APKAnalysisResult ρ) ∧
    task_code_scan groupped [] lim = ({} : APKAnalysisResult ρ) ∧
    task_tracker_domain_scan groupped none lim = ({} : APKAnalysisResult ρ) ∧
    task_tracker_domain_scan groupped (some "") lim = ({} : APKAnalysisResult ρ) ∧
    task_tracker_classname_scan groupped none lim = ({} : APKAnalysisResult ρ) ∧
    task_tracker_classname_scan groupped (some "") lim = ({} : APKAnalysisResult ρ) := by
  refine ⟨rfl, rfl, rfl, ?_, ?_, rfl, rfl, rfl, rfl, rfl, rfl⟩
  · intro n h
    by_cases hn : n = ""
    · simp [analyse_apks, hn]
    · simp [analyse_apks, hn, h]
  · intro n h
    have hmem : n = "task_permission_scan" ∨ n = "task_url_extraction" ∨
        n = "task_tracker_classname_scan" ∨ n = "task_tracker_domain_scan" ∨
        n = "task_text_search" ∨ n = "task_code_scan" := by
      simpa [apkAnalysisTaskNames] using h
    rcases hmem with rfl | rfl | rfl | rfl | rfl | rfl <;> rfl

/-- Witness for C6: a prefix-less unknown name yields the empty mapping, a
known recipe name is dispatched, and an empty search-term list yields the
default empty result. -/
theorem C6_driver_and_guards_witness :
    analyse_apks true (some "bogus") (fun n => n.length) = AnalyseOutcome.emptyDict ∧
    analyse_apks true (some "task_text_search") (fun n => n.length) =
      AnalyseOutcome.taskReturn 16 ∧
    task_text_search (fun _ => ([] : List Nat)) [] 500 = ({} : APKAnalysisResult Nat) := by
  have h := C6_driver_and_guards (fun n : String => n.length)
    (fun _ => ([] : List Nat)) 500
  exact ⟨h.2.2.2.1 "bogus" (by decide),
    h.2.2.2.2.1 "task_text_search" (by decide), h.2.2.2.2.2.1⟩

/- ### Claim C7 -/

/-- C7: with a positive limit the grouped rows are capped to at most `limit`
before materialization, `total` equals the number of materialized records
(not the pre-limit count), and `output_limit` echoes the requested limit;
with a non-positive limit no cap is applied. -/
theorem C7_limit_materialization {ρ : Type} (groupped : List ρ) (limit : Int) :
    (get_result_obj groupped limit).records =
      some (if 0 < limit then groupped.take limit.toNat else groupped) ∧
    (get_result_obj groupped limit).total =
      ((((get_result_obj groupped limit).records.getD []).length : Int)) ∧
    (get_result_obj groupped limit).output_limit = limit ∧
    (0 < limit →
      ((((get_result_obj groupped limit).records.getD []).length : Int) ≤ limit)) ∧
    (limit ≤ 0 → (get_result_obj groupped limit).records = some groupped) := by
  refine ⟨rfl, by simp [get_result_obj], rfl, ?_, ?_⟩
  · intro h
    simp only [get_result_obj, if_pos h, Option.getD_some]
    have h1 := List.length_take_le limit.toNat groupped
    omega
  · intro h
    have h2 : ¬ (0 < limit) := by omega
    simp [get_result_obj, h2]

/-- Witness for C7: eleven grouped rows with limit 3 materialize three
records, `total = 3`, `output_limit = 3`; with limit 0 all rows survive. -/
theorem C7_limit_materialization_witness :
    (get_result_obj (List.range 11) 3).records = some [0, 1, 2] ∧
    (((get_result_obj (List.range 11) 3).records.getD []).length : Int) ≤ 3 ∧
    (get_result_obj (List.range 11) 0).records = some (List.range 11) := by
  refine ⟨by decide, (C7_limit_materialization (List.range 11) 3).2.2.2.1 (by decide),
    (C7_limit_materialization (List.range 11) 0).2.2.2.2 (by decide)⟩

/- ### Claim C10 -/

/-- C10: every fail-closed guard (empty search terms for text/code scans, a
missing catalog source name for the tracker scans) returns the default
result object with exactly `total = 0`, `output_limit = 0` and
`records = none` — `output_limit` is 0 rather than the caller's requested
limit, and `records` is null rather than an empty sequence. -/
theorem C10_empty_result_shape {ρ : Type} (groupped : Unit → List ρ) (lim : Int) :
    task_text_search groupped [] lim =
      ({ total := 0, output_limit := 0, records := none } : APKAnalysisResult ρ) ∧
    task_code_scan groupped [] lim =
      ({ total := 0, output_limit := 0, records := none } : APKAnalysisResult ρ) ∧
    task_tracker_domain_scan groupped none lim =
      ({ total := 0, output_limit := 0, records := none } : APKAnalysisResult ρ) ∧
    task_tracker_classname_scan groupped none lim =
      ({ total := 0, output_limit := 0, records := none } : APKAnalysisResult ρ) ∧
    (task_text_search groupped [] lim).output_limit = 0 ∧
    (task_text_search groupped [] lim).records = none ∧
    (task_text_search groupped [] lim).total = 0 :=
  ⟨rfl, rfl, rfl, rfl, rfl, rfl, rfl⟩

/- ### Claim C8 -/

/-- C8: in the url_extraction recipe a matched url equal to a bare scheme
(`https://` or `http://`) is always excluded, and a row is retained only
when the extracted domain (the authority between `scheme://` and the next
slash) passes the FQDN shape test; in particular the line
`const-string v0, "https://"` contributes nothing while the line
`const-string v0, "https://ads.example.com/x"` yields the url
`https://ads.example.com/x` and the domain `ads.example.com`. -/
theorem C8_url_extraction_filters :
    (∀ line : String,
      (regexp_extract_url line = "https://" ∨ regexp_extract_url line = "http://") →
      processUrlLine line = none) ∧
    (∀ (line u d : String), processUrlLine line = some (u, d) →
      fqdn_rlike d = true ∧ d = regexp_extract_domain u ∧ u = regexp_extract_url line) ∧
    processUrlLine "const-string v0, \"https://\"" = none ∧
    processUrlLine "const-string v0, \"https://ads.example.com/x\"" =
      some ("https://ads.example.com/x", "ads.example.com") := by
  refine ⟨?_, ?_, by decide, by decide⟩
  · intro line h
    simp only [processUrlLine]
    split
    · rfl
    · split
      · rfl
      · rcases h with h | h <;> simp [h]
  · intro line u d h
    simp only [processUrlLine] at h
    split at h
    · exact absurd h (by simp)
    · split at h
      · exact absurd h (by simp)
      · split at h
        · exact absurd h (by simp)
        · split at h
          · exact absurd h (by simp)
          · split at h
            case isTrue hf =>
              injection h with h'
              rw [Prod.mk.injEq] at h'
              obtain ⟨hu, hd⟩ := h'
              subst hu
              subst hd
              exact ⟨hf, rfl, rfl⟩
            case isFalse => exact absurd h (by simp)

/-- Witness for C8: a line whose only url match is the bare scheme is
dropped from the results. -/
theorem C8_url_extraction_filters_witness :
    processUrlLine "invoke const-string x https:// y" = none :=
  C8_url_extraction_filters.1 "invoke const-string x https:// y" (Or.inl (by decide))
